import Mathlib

/-!
Shallow embedding of the pairing core of `src/app.py` (and the room-relay
variant `src/app2.py`) of the random-chat repository, together with proofs
about the claims on its matchmaking, registry, relay and persistence logic.

Python dictionaries are embedded as association lists with unique keys
(`dictGet` / `dictSet` / `dictPop` mirror `dict.get`, `d[k] = v` and
`d.pop(k, None)`); Python truthiness of optional strings (`if x:` with
`x : Optional[str]`) is `optTruthy`: `None` and `""` are falsy.
The random `uuid.uuid4()` session id and the wall clock are passed in as
explicit arguments.  Websocket send capabilities are identified by the
recipient's client id; an emitted send is a `(recipient, payload)` pair.
Database side effects are recorded as an explicit `DbEvent` trace.
-/

/-- Python truthiness of an `Optional[str]` value: `None` and `""` are falsy. -/
def optTruthy : Option String → Bool
  | none => false
  | some s => !s.isEmpty

/-- The characters Python's `str.isspace()` accepts — the set `str.strip()`
removes: ASCII whitespace (tab through carriage return, space), the
information separators U+001C-U+001F, next line U+0085, no-break space
U+00A0, Ogham space mark U+1680, the Unicode space separators
U+2000-U+200A, line/paragraph separators U+2028/U+2029, narrow no-break
space U+202F, medium mathematical space U+205F and ideographic space
U+3000. -/
def isPySpace (c : Char) : Bool :=
  decide (0x09 ≤ c.toNat ∧ c.toNat ≤ 0x0D) || c.toNat == 0x20 ||
  decide (0x1C ≤ c.toNat ∧ c.toNat ≤ 0x1F) || c.toNat == 0x85 || c.toNat == 0xA0 ||
  c.toNat == 0x1680 || decide (0x2000 ≤ c.toNat ∧ c.toNat ≤ 0x200A) ||
  c.toNat == 0x2028 || c.toNat == 0x2029 || c.toNat == 0x202F ||
  c.toNat == 0x205F || c.toNat == 0x3000

/-- Embedding of Python `str.strip()`: drop leading and trailing whitespace. -/
def pyStrip (s : String) : String :=
  ⟨((s.data.dropWhile isPySpace).reverse.dropWhile isPySpace).reverse⟩

/-- One entry of `Matchmaker.clients` (`ClientInfo` in `src/app.py`); the raw
`ws` handle is represented by the client id used to address sends. -/
structure ClientInfo where
  client_id : String
  ip : String
  country : String
  region : String
  city : String
  subdivision : String
  ua : String
  partner_id : Option String := none
  session_id : Option String := none
deriving DecidableEq, Repr

/-- Embeds `dict.get(k)` on an association list. -/
def dictGet (d : List (String × ClientInfo)) (k : String) : Option ClientInfo :=
  match d with
  | [] => none
  | (k', v) :: rest => if k' = k then some v else dictGet rest k

/-- Embeds `d[k] = v` on an association list: replace in place, else append. -/
def dictSet (d : List (String × ClientInfo)) (k : String) (v : ClientInfo) :
    List (String × ClientInfo) :=
  match d with
  | [] => [(k, v)]
  | (k', v') :: rest => if k' = k then (k', v) :: rest else (k', v') :: dictSet rest k v

/-- Embeds `d.pop(k, None)` on an association list with unique keys: drop
every entry stored under `k`. -/
def dictPop (d : List (String × ClientInfo)) (k : String) : List (String × ClientInfo) :=
  match d with
  | [] => []
  | (k', v') :: rest => if k' = k then dictPop rest k else (k', v') :: dictPop rest k

/-- The mutable matchmaking state of `src/app.py`: the `clients` dict and the
single `waiting` slot (`None` when empty). -/
structure MMState where
  clients : List (String × ClientInfo)
  waiting : Option String
deriving DecidableEq, Repr

/-- Database calls performed by the core, recorded as a trace. -/
inductive DbEvent where
  | connectLog (event : String) (cid : String) (sid : Option String)
  | sessionStart (sid a b : String)
  | sessionEnd (sid : String)
  | message (sid sender text : String)
deriving DecidableEq, Repr

/-- Outbound payloads the websocket handler sends (`json.dumps({...})` forms). -/
inductive OutMsg where
  | matched
  | system (text : String)
  | msgText (text : String)
  | ended
  | disconnect_ack
deriving DecidableEq, Repr

/-- An attempted websocket send: recipient client id and payload. -/
abbrev Send := String × OutMsg

namespace Matchmaker

/-- Embeds `Matchmaker.online_count`: `len(self.clients)`. -/
def online_count (st : MMState) : Nat := st.clients.length

/-- Embeds `Matchmaker.waiting_count`: 1 if the slot holds a truthy, registered,
partner-free client, else 0. -/
def waiting_count (st : MMState) : Nat :=
  match st.waiting with
  | none => 0
  | some w =>
    if w.isEmpty then 0
    else
      match dictGet st.clients w with
      | none => 0
      | some wi => if optTruthy wi.partner_id then 0 else 1

/-- Embeds `Matchmaker.add_client`: `self.clients[info.client_id] = info`. -/
def add_client (st : MMState) (info : ClientInfo) : MMState :=
  { st with clients := dictSet st.clients info.client_id info }

/-- Embeds `Matchmaker.remove_client`.  Clears the slot when occupied by `cid`,
releases a truthy partner (clearing its `partner_id`/`session_id` and ending
its session), ends `cid`'s own session if still set after the release (the
release aliases `cid`'s record when the partner id is `cid` itself, exactly
as the in-place Python mutation does), then pops the entry. -/
def remove_client (st : MMState) (cid : String) : MMState × List DbEvent :=
  let w' := if st.waiting = some cid then none else st.waiting
  let info := dictGet st.clients cid
  let step1 : List (String × ClientInfo) × List DbEvent :=
    match info with
    | none => (st.clients, [])
    | some i =>
      match i.partner_id with
      | none => (st.clients, [])
      | some pid =>
        if pid.isEmpty then (st.clients, [])
        else
          match dictGet st.clients pid with
          | none => (st.clients, [])
          | some partner =>
            (dictSet st.clients pid { partner with partner_id := none, session_id := none },
             match partner.session_id with
             | none => []
             | some s => if s.isEmpty then [] else [DbEvent.sessionEnd s])
  let clients1 := step1.1
  let ev1 := step1.2
  let ev2 :=
    match info with
    | none => []
    | some _ =>
      match dictGet clients1 cid with
      | none => []
      | some iNow =>
        match iNow.session_id with
        | none => []
        | some s => if s.isEmpty then [] else [DbEvent.sessionEnd s]
  (⟨dictPop clients1 cid, w'⟩, ev1 ++ ev2)

/-- Embeds `Matchmaker.force_end_my_session`: clears `cid`'s pairing fields, ends its
session, clears a registered partner's fields, and returns the original
`partner_id` value for the caller's "ended" notification. -/
def force_end_my_session (st : MMState) (cid : String) :
    MMState × List DbEvent × Option String :=
  match dictGet st.clients cid with
  | none => (st, [], none)
  | some me =>
    let partner_id := me.partner_id
    let sidOpt := me.session_id
    let clients1 := dictSet st.clients cid { me with partner_id := none, session_id := none }
    let ev :=
      match sidOpt with
      | none => []
      | some s => if s.isEmpty then [] else [DbEvent.sessionEnd s]
    let clients2 :=
      match partner_id with
      | none => clients1
      | some pid =>
        if pid.isEmpty then clients1
        else
          match dictGet clients1 pid with
          | none => clients1
          | some partner =>
            dictSet clients1 pid { partner with partner_id := none, session_id := none }
    ({ st with clients := clients2 }, ev, partner_id)

/-- Embeds `Matchmaker.match` (named `match_client` because `match` is reserved in
Lean).  `sid` is the `uuid.uuid4()` oracle for the fresh session id.  Returns
the new state, the database trace, and the `(matched, partner_id)` pair. -/
def match_client (sid : String) (st : MMState) (cid : String) :
    MMState × List DbEvent × Bool × Option String :=
  match dictGet st.clients cid with
  | none => (st, [], false, none)
  | some me =>
    if optTruthy me.partner_id then (st, [], false, none)
    else
      match st.waiting with
      | none => ({ st with waiting := some cid }, [], false, none)
      | some w =>
        if w.isEmpty then ({ st with waiting := some cid }, [], false, none)
        else
          match dictGet st.clients w with
          | none => ({ st with waiting := some cid }, [], false, none)
          | some wi =>
            if optTruthy wi.partner_id then ({ st with waiting := some cid }, [], false, none)
            else if w = cid then (st, [], false, none)
            else
              match dictGet st.clients w with
              | none => ({ st with waiting := some cid }, [], false, none)
              | some other =>
                if optTruthy other.partner_id then
                  ({ st with waiting := some cid }, [], false, none)
                else
                  let me' := { me with partner_id := some w, session_id := some sid }
                  let other' := { other with partner_id := some cid, session_id := some sid }
                  (⟨dictSet (dictSet st.clients cid me') w other', none⟩,
                   [DbEvent.sessionStart sid me.client_id other.client_id], true, some w)

/-- Embeds `Matchmaker.match` with an explicit persistence outcome: `db_start_session`
is called synchronously in the success branch with no exception guard, so when
it raises (`dbOk = false`) the already-performed state mutations survive but
the call raises instead of returning. -/
def match_client_db (dbOk : Bool) (sid : String) (st : MMState) (cid : String) :
    MMState × Except Unit (Bool × Option String) :=
  let r := match_client sid st cid
  (r.1, if r.2.2.1 ∧ !dbOk then Except.error () else Except.ok (r.2.2.1, r.2.2.2))

end Matchmaker

/-- Embeds `fake_online_offset`: `3 + (int(time.time()) // 120) % 3`. -/
def fake_online_offset (t : Nat) : Nat := 3 + (t / 120) % 3

/-- Embeds the `/api/online` endpoint: `(online_real, online_display, waiting_now)`. -/
def api_online (t : Nat) (st : MMState) : Nat × Nat × Nat :=
  let real := Matchmaker.online_count st
  let fake := fake_online_offset t
  (real, real + fake, Matchmaker.waiting_count st)

/-- One row of the `ws_sessions` table (geo columns elided; they play no role
in `db_end_session`). -/
structure SessionRow where
  session_id : String
  ts_start : String
  ts_end : Option String
  client_a : String
  client_b : String
deriving DecidableEq, Repr

/-- Embeds `db_end_session`: `UPDATE ws_sessions SET ts_end=now WHERE session_id=sid
AND ts_end IS NULL`. -/
def db_end_session (tbl : List SessionRow) (sid : String) (now : String) :
    List SessionRow :=
  tbl.map (fun r => if r.session_id = sid ∧ r.ts_end = none then
    { r with ts_end := some now } else r)

/-- Inbound message types dispatched by `ws_endpoint`; `other` is any tag that
is none of `start`/`next`/`disconnect`/`msg` (including an absent tag). -/
inductive InMsg where
  | start
  | next
  | disconnect
  | chat (text : String)
  | other (tag : Option String)
deriving DecidableEq, Repr

/-- Whether the `ws_endpoint` receive loop continues or breaks after a message. -/
inductive LoopCtl where
  | cont
  | brk
deriving DecidableEq, Repr

/-- The connect phase of `ws_endpoint`: build the `ClientInfo`, register it,
log the connect event. -/
def ws_connect (st : MMState) (cid ip country region city subdivision ua : String) :
    MMState × List DbEvent :=
  let info : ClientInfo :=
    { client_id := cid, ip := ip, country := country, region := region,
      city := city, subdivision := subdivision, ua := ua }
  (Matchmaker.add_client st info, [DbEvent.connectLog "connect" cid none])

/-- The `start` branch of `ws_endpoint`: searching notice, match attempt, and
`matched` notices to both sides on success (`if matched and other_id:` tests
truthiness of the returned partner id, `if other and me:` re-checks both
registrations, `me` being the fetch made at the top of the loop iteration). -/
def handle_start (sid : String) (st : MMState) (cid : String) :
    MMState × List DbEvent × List Send × LoopCtl :=
  let me0 := dictGet st.clients cid
  let s0 : List Send := [(cid, OutMsg.system "待機中...相手を探しています")]
  let r := Matchmaker.match_client sid st cid
  let sends :=
    if r.2.2.1 ∧ optTruthy r.2.2.2 then
      match r.2.2.2 with
      | none => s0
      | some oid =>
        match dictGet r.1.clients oid, me0 with
        | some _, some _ => s0 ++ [(cid, OutMsg.matched), (oid, OutMsg.matched)]
        | _, _ => s0
    else s0
  (r.1, r.2.1, sends, LoopCtl.cont)

/-- The `next` branch of `ws_endpoint`: if paired, fetch the partner, clear
both sides' pairing fields, end the session, send `ended` to the partner;
then the searching notice and a fresh match attempt as in `start`. -/
def handle_next (sid : String) (st : MMState) (cid : String) :
    MMState × List DbEvent × List Send × LoopCtl :=
  let me0 := dictGet st.clients cid
  let step : MMState × List DbEvent × List Send :=
    match me0 with
    | none => (st, [], [])
    | some m =>
      match m.partner_id with
      | none => (st, [], [])
      | some pid =>
        if pid.isEmpty then (st, [], [])
        else
          let partner := dictGet st.clients pid
          let sidOpt := m.session_id
          let clients1 := dictSet st.clients cid { m with partner_id := none, session_id := none }
          let ev :=
            match sidOpt with
            | none => []
            | some s => if s.isEmpty then [] else [DbEvent.sessionEnd s]
          match partner with
          | none => ({ st with clients := clients1 }, ev, [])
          | some p =>
            ({ st with
                clients := dictSet clients1 pid { p with partner_id := none, session_id := none } },
             ev, [(pid, OutMsg.ended)])
  let st1 := step.1
  let s1 := step.2.2 ++ [(cid, OutMsg.system "待機中...相手を探しています")]
  let r := Matchmaker.match_client sid st1 cid
  let sends :=
    if r.2.2.1 ∧ optTruthy r.2.2.2 then
      match r.2.2.2 with
      | none => s1
      | some oid =>
        match dictGet r.1.clients oid, me0 with
        | some _, some _ => s1 ++ [(cid, OutMsg.matched), (oid, OutMsg.matched)]
        | _, _ => s1
    else s1
  (r.1, step.2.1 ++ r.2.1, sends, LoopCtl.cont)

/-- The `disconnect` branch of `ws_endpoint`: force-end the session, notify a
still-registered partner, acknowledge, and break out of the receive loop. -/
def handle_disconnect (st : MMState) (cid : String) :
    MMState × List DbEvent × List Send × LoopCtl :=
  let r := Matchmaker.force_end_my_session st cid
  let sends :=
    match r.2.2 with
    | none => []
    | some pid =>
      if pid.isEmpty then []
      else
        match dictGet r.1.clients pid with
        | none => []
        | some _ => [(pid, OutMsg.ended)]
  (r.1, r.2.1, sends ++ [(cid, OutMsg.disconnect_ack)], LoopCtl.brk)

/-- The `msg` branch of `ws_endpoint`: strip the text, drop it if empty, log
it when a session is active, and relay it to a truthy, registered partner,
else send the "not matched yet" notice to the sender. -/
def handle_msg (st : MMState) (cid : String) (text0 : String) :
    MMState × List DbEvent × List Send × LoopCtl :=
  let me0 := dictGet st.clients cid
  let text := pyStrip text0
  if text.isEmpty then (st, [], [], LoopCtl.cont)
  else
    let ev :=
      match me0 with
      | none => []
      | some m =>
        match m.session_id with
        | none => []
        | some s => if s.isEmpty then [] else [DbEvent.message s cid text]
    let sends :=
      match me0 with
      | none => [(cid, OutMsg.system "まだマッチしていません")]
      | some m =>
        match m.partner_id with
        | none => [(cid, OutMsg.system "まだマッチしていません")]
        | some pid =>
          if pid.isEmpty then [(cid, OutMsg.system "まだマッチしていません")]
          else
            match dictGet st.clients pid with
            | none => [(cid, OutMsg.system "まだマッチしていません")]
            | some _ => [(pid, OutMsg.msgText text)]
    (st, ev, sends, LoopCtl.cont)

/-- The dispatch of one inbound message in `ws_endpoint`'s receive loop; an
unrecognized type falls through to the `else` branch. -/
def handle_message (sid : String) (st : MMState) (cid : String) (m : InMsg) :
    MMState × List DbEvent × List Send × LoopCtl :=
  match m with
  | InMsg.start => handle_start sid st cid
  | InMsg.next => handle_next sid st cid
  | InMsg.disconnect => handle_disconnect st cid
  | InMsg.chat t => handle_msg st cid t
  | InMsg.other _ => (st, [], [(cid, OutMsg.system "unknown command")], LoopCtl.cont)

/-- The `finally` block of `ws_endpoint`: log the disconnect with the client's
current session id (if any) and remove the client from the registry. -/
def ws_finally (st : MMState) (cid : String) : MMState × List DbEvent :=
  let sidOpt :=
    match dictGet st.clients cid with
    | none => none
    | some i => i.session_id
  let r := Matchmaker.remove_client st cid
  (r.1, DbEvent.connectLog "disconnect" cid sidOpt :: r.2)

/-! ### Test fixtures: concrete client records and states used by witnesses
and counterexamples. -/

/-- A concrete `ClientInfo` with fixed enrichment fields and the given
pairing fields. -/
def infoOf (cid : String) (p s : Option String) : ClientInfo :=
  { client_id := cid, ip := "ip0", country := "c0", region := "r0", city := "t0",
    subdivision := "s0", ua := "u0", partner_id := p, session_id := s }

/-- A state with clients `A` and `B` paired in session `S`. -/
def stPaired : MMState :=
  ⟨[("A", infoOf "A" (some "B") (some "S")), ("B", infoOf "B" (some "A") (some "S"))], none⟩

/-- A state with unpaired clients `A` and `B`, `A` occupying the waiting slot. -/
def stWaitingA : MMState :=
  ⟨[("A", infoOf "A" none none), ("B", infoOf "B" none none)], some "A"⟩

/-! ### C9: unrecognized inbound message types -/

/-- C9: for every inbound message whose type tag is not one of
`start`/`next`/`disconnect`/`msg`, the sender receives exactly one system
notice ("unknown command"), no database call is made, the registry, slot and
pairings are unchanged, and the receive loop continues. -/
theorem c9_unknown_type_keeps_connection (sid : String) (st : MMState) (cid : String)
    (tag : Option String) :
    handle_message sid st cid (InMsg.other tag) =
      (st, [], [(cid, OutMsg.system "unknown command")], LoopCtl.cont) := rfl

/-! ### C10: the cosmetic online count -/

/-- C10: `/api/online` reports `online_display = online_real + k` where
`online_real` is the exact number of registered clients and
`k = fake_online_offset t` is a deterministic function of the time `t` with
`3 ≤ k ≤ 5`. -/
theorem c10_online_display_offset (t : Nat) (st : MMState) :
    (api_online t st).1 = Matchmaker.online_count st ∧
    Matchmaker.online_count st = st.clients.length ∧
    (api_online t st).2.1 = Matchmaker.online_count st + fake_online_offset t ∧
    3 ≤ fake_online_offset t ∧ fake_online_offset t ≤ 5 := by
  refine ⟨rfl, rfl, rfl, ?_, ?_⟩ <;>
    · unfold fake_online_offset
      omega

/-! ### C8: idempotence of session close -/

/-- C8: `db_end_session` is idempotent on the session table — a second close
(at any later timestamp) is a no-op and does not overwrite the first end
timestamp; closing an unknown session id, or a table whose rows are all
already closed, is a no-op. -/
theorem c8_close_idempotent (tbl : List SessionRow) (sid t1 t2 : String) :
    db_end_session (db_end_session tbl sid t1) sid t2 = db_end_session tbl sid t1 ∧
    ((∀ r ∈ tbl, r.session_id ≠ sid) → db_end_session tbl sid t1 = tbl) ∧
    ((∀ r ∈ tbl, r.ts_end ≠ none) → db_end_session tbl sid t1 = tbl) := by
  refine ⟨?_, ?_, ?_⟩
  · simp only [db_end_session, List.map_map]
    apply List.map_congr_left
    intro r _
    by_cases h : r.session_id = sid ∧ r.ts_end = none
    · simp [h]
    · simp [h]
  · intro h
    simp only [db_end_session]
    conv_rhs => rw [← List.map_id tbl]
    apply List.map_congr_left
    intro r hr
    simp [h r hr]
  · intro h
    simp only [db_end_session]
    conv_rhs => rw [← List.map_id tbl]
    apply List.map_congr_left
    intro r hr
    simp [h r hr]

/-- Witness for C8 at a concrete table: a row closed at `t1` keeps end time
`t1` after a second close at `t2`, and a close for an unknown id is a no-op. -/
theorem c8_close_idempotent_witness :
    db_end_session (db_end_session [⟨"S", "t0", none, "A", "B"⟩] "S" "t1") "S" "t2"
        = db_end_session [⟨"S", "t0", none, "A", "B"⟩] "S" "t1" ∧
    db_end_session [⟨"S", "t0", none, "A", "B"⟩] "X" "t1"
        = [⟨"S", "t0", none, "A", "B"⟩] := by
  refine ⟨(c8_close_idempotent [⟨"S", "t0", none, "A", "B"⟩] "S" "t1" "t2").1, ?_⟩
  exact (c8_close_idempotent [⟨"S", "t0", none, "A", "B"⟩] "X" "t1" "t2").2.1
    (by decide)

/-! ### C2: no self-match -/

/-- C2: `Matchmaker.match` never returns `(matched=True, partner_id=x)` for
requester `x`, and when the waiting slot's occupant is `x` itself the call
returns not-matched and leaves the slot unchanged. -/
theorem c2_no_self_match (sid : String) (st : MMState) (cid : String) :
    ((Matchmaker.match_client sid st cid).2.2.1 = true →
      (Matchmaker.match_client sid st cid).2.2.2 ≠ some cid) ∧
    (st.waiting = some cid →
      (Matchmaker.match_client sid st cid).2.2.1 = false ∧
      (Matchmaker.match_client sid st cid).1.waiting = st.waiting) := by
  cases hg : dictGet st.clients cid with
  | none => simp [Matchmaker.match_client, hg]
  | some me =>
    by_cases hpt : optTruthy me.partner_id
    · simp [Matchmaker.match_client, hg, hpt]
    · cases hw : st.waiting with
      | none => simp [Matchmaker.match_client, hg, hpt, hw]
      | some w =>
        by_cases hwe : w.isEmpty
        · constructor
          · simp [Matchmaker.match_client, hg, hpt, hw, hwe]
          · intro hcid
            simp only [Option.some.injEq] at hcid
            subst hcid
            simp [Matchmaker.match_client, hg, hpt, hw, hwe]
        · cases hgw : dictGet st.clients w with
          | none =>
            constructor
            · simp [Matchmaker.match_client, hg, hpt, hw, hwe, hgw]
            · intro hcid
              simp only [Option.some.injEq] at hcid
              subst hcid
              simp_all [Matchmaker.match_client]
          | some wi =>
            by_cases hwt : optTruthy wi.partner_id
            · constructor
              · simp [Matchmaker.match_client, hg, hpt, hw, hwe, hgw, hwt]
              · intro hcid
                simp only [Option.some.injEq] at hcid
                subst hcid
                simp_all [Matchmaker.match_client]
            · by_cases hwc : w = cid
              · subst hwc
                simp [Matchmaker.match_client, hg, hpt, hw, hwe, hgw, hwt]
              · constructor
                · intro _ hcontra
                  simp [Matchmaker.match_client, hg, hpt, hw, hwe, hgw, hwt, hwc] at hcontra
                · intro hcid
                  simp only [Option.some.injEq] at hcid
                  exact absurd hcid hwc

/-- Witness for C2 at a concrete state: `A` occupies the slot and calls
`match`; the call reports not-matched and the slot is unchanged. -/
theorem c2_no_self_match_witness :
    (Matchmaker.match_client "S" stWaitingA "A").2.2.1 = false ∧
    (Matchmaker.match_client "S" stWaitingA "A").1.waiting = stWaitingA.waiting :=
  (c2_no_self_match "S" stWaitingA "A").2 rfl

/-- Counterexample to C4 as stated: in a state where the pairing attempt
succeeds, a raising `db_start_session` makes `Matchmaker.match` raise as
well (`Except.error`) instead of returning `(matched=True, partner_id)` — the
persistence call sits unguarded inside the success branch. -/
theorem c4_counterexample :
    (Matchmaker.match_client_db false "S" stWaitingA "B").2 = Except.error () ∧
    (Matchmaker.match_client_db true "S" stWaitingA "B").2 = Except.ok (true, some "A") := by
  constructor <;> rfl

/-- C4 amended: all pairing state mutations (both clients' `partner_id` and
`session_id`, and the cleared slot) are completed before the persistence
call, so the post-call state is identical whether or not `db_start_session`
fails; but a failing call raises out of `match` exactly when the attempt
paired, instead of returning matched. -/
theorem c4_state_unaffected_by_db (dbOk : Bool) (sid : String) (st : MMState) (cid : String) :
    (Matchmaker.match_client_db dbOk sid st cid).1 = (Matchmaker.match_client sid st cid).1 ∧
    ((Matchmaker.match_client_db dbOk sid st cid).2 = Except.error () ↔
      (Matchmaker.match_client sid st cid).2.2.1 = true ∧ dbOk = false) := by
  unfold Matchmaker.match_client_db
  refine ⟨rfl, ?_⟩
  by_cases hm : (Matchmaker.match_client sid st cid).2.2.1 = true
  · cases dbOk <;> simp [hm]
  · cases dbOk <;> simp [hm]

/-! ### Association-list lemmas -/

/-- Looking up the key just set returns the new value. -/
theorem dictGet_dictSet_self (d : List (String × ClientInfo)) (k : String) (v : ClientInfo) :
    dictGet (dictSet d k v) k = some v := by
  induction d with
  | nil => simp [dictGet, dictSet]
  | cons e rest ih =>
    obtain ⟨k', v'⟩ := e
    by_cases h : k' = k
    · simp [dictGet, dictSet, h]
    · simp [dictGet, dictSet, h, ih]

/-- Setting one key leaves lookups of other keys unchanged. -/
theorem dictGet_dictSet_ne (d : List (String × ClientInfo)) (k : String) (v : ClientInfo)
    (x : String) (h : x ≠ k) : dictGet (dictSet d k v) x = dictGet d x := by
  induction d with
  | nil =>
    simp only [dictSet, dictGet]
    rw [if_neg (fun he : k = x => h he.symm)]
  | cons e rest ih =>
    obtain ⟨k', v'⟩ := e
    simp only [dictSet]
    by_cases hk : k' = k
    · rw [if_pos hk]
      have hkx : ¬k' = x := fun he => h (he ▸ hk)
      simp only [dictGet, if_neg hkx]
    · rw [if_neg hk]
      simp only [dictGet]
      by_cases hx : k' = x
      · rw [if_pos hx, if_pos hx]
      · rw [if_neg hx, if_neg hx]
        exact ih

/-- Looking up a popped key returns nothing. -/
theorem dictGet_dictPop_self (d : List (String × ClientInfo)) (k : String) :
    dictGet (dictPop d k) k = none := by
  induction d with
  | nil => rfl
  | cons e rest ih =>
    obtain ⟨k', v'⟩ := e
    simp only [dictPop]
    by_cases h : k' = k
    · rw [if_pos h]
      exact ih
    · rw [if_neg h]
      simp only [dictGet, if_neg h]
      exact ih

/-- Popping one key leaves lookups of other keys unchanged. -/
theorem dictGet_dictPop_ne (d : List (String × ClientInfo)) (k x : String) (h : x ≠ k) :
    dictGet (dictPop d k) x = dictGet d x := by
  induction d with
  | nil => rfl
  | cons e rest ih =>
    obtain ⟨k', v'⟩ := e
    simp only [dictPop]
    by_cases hk : k' = k
    · rw [if_pos hk]
      have hkx : ¬k' = x := fun he => h (he ▸ hk)
      simp only [dictGet, if_neg hkx]
      exact ih
    · rw [if_neg hk]
      simp only [dictGet]
      by_cases hx : k' = x
      · rw [if_pos hx, if_pos hx]
      · rw [if_neg hx, if_neg hx]
        exact ih

/-- Popping an absent key is a no-op. -/
theorem dictPop_of_get_none (d : List (String × ClientInfo)) (k : String)
    (h : dictGet d k = none) : dictPop d k = d := by
  induction d with
  | nil => rfl
  | cons e rest ih =>
    obtain ⟨k', v'⟩ := e
    simp only [dictGet] at h
    by_cases hk : k' = k
    · rw [if_pos hk] at h
      exact absurd h (by simp)
    · rw [if_neg hk] at h
      simp only [dictPop, if_neg hk]
      rw [ih h]

/-! ### C7: registry removal -/

/-- After removal, the removed client is no longer registered. -/
theorem remove_client_get_self (st : MMState) (c : String) :
    dictGet (Matchmaker.remove_client st c).1.clients c = none := by
  unfold Matchmaker.remove_client
  exact dictGet_dictPop_self _ _

/-- After removal, the slot never holds the removed client. -/
theorem remove_client_waiting_ne (st : MMState) (c : String) :
    (Matchmaker.remove_client st c).1.waiting ≠ some c := by
  unfold Matchmaker.remove_client
  by_cases h : st.waiting = some c <;> simp [h]

/-- Removing an unregistered client only pops (a no-op on the map) and leaves
a slot not holding it alone. -/
theorem remove_client_not_registered (st : MMState) (c : String)
    (h : dictGet st.clients c = none) (hw : st.waiting ≠ some c) :
    (Matchmaker.remove_client st c).1 = ⟨dictPop st.clients c, st.waiting⟩ := by
  unfold Matchmaker.remove_client
  simp [h, hw]

/-- The `ws_endpoint` trace of spec scenario 4: a lone client `A` connects,
sends `start` (entering the empty slot), then disconnects abruptly. -/
def loneClientTrace : MMState × List DbEvent × List Send :=
  let a := ws_connect ⟨[], none⟩ "A" "ip1" "c1" "r1" "t1" "s1" "u1"
  let b := handle_start "SX" a.1 "A"
  let c := ws_finally b.1 "A"
  (c.1, a.2 ++ b.2.1 ++ c.2, b.2.2.1)

/-- C7: `remove_client` is idempotent on the state; it clears the slot when
the removed client occupies it; it clears a registered partner's
`partner_id`/`session_id`; and in the lone-client scenario (connect, `start`,
disconnect) the final state is empty, no session-start event is ever emitted,
and no `ended` notice is sent to anyone. -/
theorem c7_remove_client (st : MMState) (c : String) :
    (Matchmaker.remove_client (Matchmaker.remove_client st c).1 c).1
        = (Matchmaker.remove_client st c).1 ∧
    (st.waiting = some c → (Matchmaker.remove_client st c).1.waiting = none) ∧
    (∀ i p pi, dictGet st.clients c = some i → i.partner_id = some p →
      p.isEmpty = false → p ≠ c → dictGet st.clients p = some pi →
      dictGet (Matchmaker.remove_client st c).1.clients p
        = some { pi with partner_id := none, session_id := none }) ∧
    (loneClientTrace.1 = ⟨[], none⟩ ∧
     loneClientTrace.2.1.all (fun e =>
       match e with
       | DbEvent.sessionStart _ _ _ => false
       | _ => true) = true ∧
     loneClientTrace.2.2.all (fun s =>
       match s.2 with
       | OutMsg.ended => false
       | _ => true) = true) := by
  refine ⟨?_, ?_, ?_, by decide, by decide, by decide⟩
  · have hself := remove_client_get_self st c
    have hwne := remove_client_waiting_ne st c
    rw [remove_client_not_registered _ _ hself hwne]
    rw [dictPop_of_get_none _ _ hself]
  · intro h
    unfold Matchmaker.remove_client
    simp [h]
  · intro i p pi hgc hip hpne hpc hgp
    unfold Matchmaker.remove_client
    simp only [hgc, hip, hpne, hgp, Bool.false_eq_true, if_false]
    rw [dictGet_dictPop_ne _ _ _ hpc, dictGet_dictSet_self]

/-- Witness for C7 at concrete states: removing `A` from the paired state
clears `B`'s pairing fields, a second removal is a no-op, and removing the
slot occupant empties the slot. -/
theorem c7_remove_client_witness :
    dictGet (Matchmaker.remove_client stPaired "A").1.clients "B"
        = some { infoOf "B" (some "A") (some "S") with
                  partner_id := none, session_id := none } ∧
    (Matchmaker.remove_client (Matchmaker.remove_client stPaired "A").1 "A").1
        = (Matchmaker.remove_client stPaired "A").1 ∧
    (Matchmaker.remove_client stWaitingA "A").1.waiting = none := by
  refine ⟨?_, ?_, ?_⟩
  · exact (c7_remove_client stPaired "A").2.2.1 (infoOf "A" (some "B") (some "S")) "B"
      (infoOf "B" (some "A") (some "S")) rfl rfl rfl (by decide) rfl
  · exact (c7_remove_client stPaired "A").1
  · exact (c7_remove_client stWaitingA "A").2.1 rfl

/-! ### C6: the `next` operation -/

/-- Helper: a registered, partner-free requester of `Matchmaker.match`
either ends up occupying the slot, not matched and with its record
untouched, or has its record rewritten with a fresh partner and the fresh
session id. -/
theorem matchClient_outcome (sid : String) (st : MMState) (cid : String)
    (me : ClientInfo) (hme : dictGet st.clients cid = some me)
    (hfree : optTruthy me.partner_id = false) :
    ((Matchmaker.match_client sid st cid).1.waiting = some cid ∧
      (Matchmaker.match_client sid st cid).2.2.1 = false ∧
      dictGet (Matchmaker.match_client sid st cid).1.clients cid = some me) ∨
    (∃ w', w' ≠ cid ∧
      dictGet (Matchmaker.match_client sid st cid).1.clients cid
        = some { me with partner_id := some w', session_id := some sid }) := by
  cases hw : st.waiting with
  | none =>
    left
    simp [Matchmaker.match_client, hme, hfree, hw]
  | some w =>
    by_cases hwe : w.isEmpty
    · left
      simp [Matchmaker.match_client, hme, hfree, hw, hwe]
    · cases hgw : dictGet st.clients w with
      | none =>
        left
        simp [Matchmaker.match_client, hme, hfree, hw, hwe, hgw]
      | some wi =>
        by_cases hwt : optTruthy wi.partner_id
        · left
          simp [Matchmaker.match_client, hme, hfree, hw, hwe, hgw, hwt]
        · by_cases hwc : w = cid
          · left
            subst hwc
            simp [Matchmaker.match_client, hme, hfree, hw, hwe, hgw, hwt]
          · right
            refine ⟨w, hwc, ?_⟩
            simp only [Matchmaker.match_client, hme, hfree, hw, hwe, hgw, hwt, hwc,
              Bool.false_eq_true, if_false]
            rw [dictGet_dictSet_ne _ _ _ _ (fun he => hwc he.symm), dictGet_dictSet_self]

/-- Helper: a match attempt only ever rewrites the requester's entry and the
slot occupant's entry; any other key keeps its record. -/
theorem matchClient_other_keys (sid : String) (st : MMState) (cid x : String)
    (hx : x ≠ cid) (hxw : st.waiting ≠ some x) :
    dictGet (Matchmaker.match_client sid st cid).1.clients x
      = dictGet st.clients x := by
  cases hg : dictGet st.clients cid with
  | none => simp [Matchmaker.match_client, hg]
  | some me =>
    by_cases hpt : optTruthy me.partner_id
    · simp [Matchmaker.match_client, hg, hpt]
    · cases hw : st.waiting with
      | none => simp [Matchmaker.match_client, hg, hpt, hw]
      | some w =>
        have hxwne : x ≠ w := fun he => hxw (by rw [hw, he])
        by_cases hwe : w.isEmpty
        · simp [Matchmaker.match_client, hg, hpt, hw, hwe]
        · cases hgw : dictGet st.clients w with
          | none => simp [Matchmaker.match_client, hg, hpt, hw, hwe, hgw]
          | some wi =>
            by_cases hwt : optTruthy wi.partner_id
            · simp [Matchmaker.match_client, hg, hpt, hw, hwe, hgw, hwt]
            · by_cases hwc : w = cid
              · subst hwc
                simp [Matchmaker.match_client, hg, hpt, hw, hwe, hgw, hwt]
              · simp only [Matchmaker.match_client, hg, hpt, hw, hwe, hgw, hwt, hwc,
                  Bool.false_eq_true, if_false]
                rw [dictGet_dictSet_ne _ _ _ _ hxwne, dictGet_dictSet_ne _ _ _ _ hx]

/-- C6: `next` from a paired client (partner registered, an active session,
and a sane slot not holding the partner) closes the current session — the
session-end database call is emitted and the former partner's
`partner_id`/`session_id` are cleared in the final state — sends that
partner exactly one `ended` notice, and re-runs the match attempt for the
requester, who afterwards either occupies the waiting slot with cleared
pairing fields or is immediately re-paired under the fresh session id. -/
theorem c6_next_closes_and_requeues (sid : String) (st : MMState) (cid p s0 : String)
    (me pInfo : ClientInfo) (hme : dictGet st.clients cid = some me)
    (hp : me.partner_id = some p) (hpne : p.isEmpty = false) (hpc : p ≠ cid)
    (hpi : dictGet st.clients p = some pInfo) (hsid : me.session_id = some s0)
    (hs0 : s0.isEmpty = false) (hws : st.waiting ≠ some p) :
    (handle_next sid st cid).2.2.1.count (p, OutMsg.ended) = 1 ∧
    DbEvent.sessionEnd s0 ∈ (handle_next sid st cid).2.1 ∧
    (∃ pi', dictGet (handle_next sid st cid).1.clients p = some pi' ∧
      pi'.partner_id = none ∧ pi'.session_id = none) ∧
    (((handle_next sid st cid).1.waiting = some cid ∧
        dictGet (handle_next sid st cid).1.clients cid
          = some { me with partner_id := none, session_id := none }) ∨
      (∃ w', w' ≠ cid ∧
        dictGet (handle_next sid st cid).1.clients cid
          = some { me with partner_id := some w', session_id := some sid })) := by
  have hcid_ne_p : cid ≠ p := fun he => hpc he.symm
  have hget1 : dictGet (dictSet (dictSet st.clients cid
        { me with partner_id := none, session_id := none }) p
        { pInfo with partner_id := none, session_id := none }) cid
      = some { me with partner_id := none, session_id := none } := by
    rw [dictGet_dictSet_ne _ _ _ _ hcid_ne_p, dictGet_dictSet_self]
  have hred : (handle_next sid st cid).1 =
      (Matchmaker.match_client sid
        ⟨dictSet (dictSet st.clients cid
          { me with partner_id := none, session_id := none }) p
          { pInfo with partner_id := none, session_id := none }, st.waiting⟩ cid).1 := by
    simp only [handle_next, hme, hp, hpne, hpi, hsid, hs0, Bool.false_eq_true, if_false]
  have hrede : (handle_next sid st cid).2.1 =
      DbEvent.sessionEnd s0 ::
        (Matchmaker.match_client sid
          ⟨dictSet (dictSet st.clients cid
            { me with partner_id := none, session_id := none }) p
            { pInfo with partner_id := none, session_id := none }, st.waiting⟩ cid).2.1 := by
    simp only [handle_next, hme, hp, hpne, hpi, hsid, hs0, Bool.false_eq_true, if_false,
      List.singleton_append]
  refine ⟨?_, ?_, ?_, ?_⟩
  · simp only [handle_next, hme, hp, hpne, hpi, hsid, hs0, Bool.false_eq_true, if_false]
    split
    · split
      · simp [List.count_cons]
      · split
        · simp [List.count_append, List.count_cons, Prod.mk.injEq]
        · simp [List.count_cons]
    · simp [List.count_cons]
  · rw [hrede]
    exact List.mem_cons_self _ _
  · rw [hred]
    refine ⟨{ pInfo with partner_id := none, session_id := none }, ?_, rfl, rfl⟩
    have hok := matchClient_other_keys sid
      ⟨dictSet (dictSet st.clients cid
        { me with partner_id := none, session_id := none }) p
        { pInfo with partner_id := none, session_id := none }, st.waiting⟩ cid p hpc hws
    rw [hok]
    exact dictGet_dictSet_self _ _ _
  · rw [hred]
    rcases matchClient_outcome sid
        ⟨dictSet (dictSet st.clients cid
          { me with partner_id := none, session_id := none }) p
          { pInfo with partner_id := none, session_id := none }, st.waiting⟩ cid
        { me with partner_id := none, session_id := none } hget1 rfl with
      ⟨h1, _, h3⟩ | ⟨w', hne, hgw⟩
    · left
      exact ⟨h1, h3⟩
    · right
      exact ⟨w', hne, hgw⟩

/-- Witness for C6: `A` (paired with `B` in session `S` in `stPaired`) sends
`next`; `B` receives exactly one `ended`, session `S` is ended, `B` is left
unpaired, and `A` ends up waiting with cleared fields or re-paired under the
fresh id. -/
theorem c6_next_closes_and_requeues_witness :
    (handle_next "S2" stPaired "A").2.2.1.count ("B", OutMsg.ended) = 1 ∧
    DbEvent.sessionEnd "S" ∈ (handle_next "S2" stPaired "A").2.1 ∧
    (∃ pi', dictGet (handle_next "S2" stPaired "A").1.clients "B" = some pi' ∧
      pi'.partner_id = none ∧ pi'.session_id = none) ∧
    (((handle_next "S2" stPaired "A").1.waiting = some "A" ∧
        dictGet (handle_next "S2" stPaired "A").1.clients "A"
          = some { infoOf "A" (some "B") (some "S") with
                    partner_id := none, session_id := none }) ∨
      (∃ w', w' ≠ "A" ∧
        dictGet (handle_next "S2" stPaired "A").1.clients "A"
          = some { infoOf "A" (some "B") (some "S") with
                    partner_id := some w', session_id := some "S2" })) :=
  c6_next_closes_and_requeues "S2" stPaired "A" "B" "S"
    (infoOf "A" (some "B") (some "S")) (infoOf "B" (some "A") (some "S"))
    rfl rfl rfl (by decide) rfl rfl rfl (by decide)

/-! ### C1: partner symmetry

The registry invariant is proved for op sequences in which every registration uses a
client id that is nonempty and not currently registered.  Both restrictions
are forced: a duplicate registration re-registers a paired client with
`partner_id=None` while its partner still points at it (`c1_counterexample`),
and an empty client id is treated as an empty slot by Python truthiness,
which also breaks the invariant after the partner of `""` is removed and
re-registered. -/

/-- A fresh `ClientInfo` exactly as `ws_endpoint` constructs it at connection
time: pairing fields unset. -/
def freshInfo (cid ip co re ci su ua : String) : ClientInfo :=
  ⟨cid, ip, co, re, ci, su, ua, none, none⟩

/-- States reachable from the empty matchmaker by fresh, nonempty-id registrations,
removals and match attempts (the operation set named by the claim). -/
inductive ReachF : MMState → Prop where
  | init : ReachF ⟨[], none⟩
  | register (st : MMState) (cid ip co re ci su ua : String) (h : ReachF st)
      (hfresh : dictGet st.clients cid = none) (hne : cid ≠ "") :
      ReachF (Matchmaker.add_client st (freshInfo cid ip co re ci su ua))
  | remove (st : MMState) (cid : String) (h : ReachF st) :
      ReachF (Matchmaker.remove_client st cid).1
  | attempt (st : MMState) (cid sid : String) (h : ReachF st) :
      ReachF (Matchmaker.match_client sid st cid).1

/-- Every registry entry is stored under its own nonempty `client_id`. -/
def keysConsistent (d : List (String × ClientInfo)) : Prop :=
  ∀ a ia, dictGet d a = some ia → ia.client_id = a ∧ a ≠ ""

/-- Every `partner_id` reference points at a registered client. -/
def partnersRegistered (d : List (String × ClientInfo)) : Prop :=
  ∀ a ia p, dictGet d a = some ia → ia.partner_id = some p →
    ∃ ib, dictGet d p = some ib

/-- Partner references are mutual. -/
def partnersMutual (d : List (String × ClientInfo)) : Prop :=
  ∀ a ia b ib, dictGet d a = some ia → dictGet d b = some ib →
    ia.partner_id = some b → ib.partner_id = some a

/-- The registry invariant behind C1 (on the clients map). -/
def RegInv (d : List (String × ClientInfo)) : Prop :=
  keysConsistent d ∧ partnersRegistered d ∧ partnersMutual d

/-- Under `RegInv`, a falsy `partner_id` is exactly `None` (a truthy-falsy
`some ""` would have to point at a registered empty id). -/
theorem partner_none_of_not_truthy (d : List (String × ClientInfo)) (hinv : RegInv d)
    (a : String) (ia : ClientInfo) (ha : dictGet d a = some ia)
    (hf : optTruthy ia.partner_id = false) : ia.partner_id = none := by
  obtain ⟨hkeys, hreg, _⟩ := hinv
  cases hip : ia.partner_id with
  | none => rfl
  | some s =>
    rw [hip] at hf
    simp only [optTruthy, Bool.not_eq_false'] at hf
    have hs : s = "" := (String.isEmpty_iff s).mp hf
    obtain ⟨ib, hb⟩ := hreg a ia s ha hip
    subst hs
    exact absurd (hkeys "" ib hb).2 (by simp)

/-- Full characterization of lookups after `remove_client`: the removed key
is gone, its truthy registered partner is cleared, everything else is
untouched. -/
theorem remove_client_get (st : MMState) (c x : String) :
    dictGet (Matchmaker.remove_client st c).1.clients x =
      if x = c then none
      else
        match dictGet st.clients c with
        | none => dictGet st.clients x
        | some i =>
          match i.partner_id with
          | none => dictGet st.clients x
          | some pid =>
            if pid.isEmpty then dictGet st.clients x
            else
              match dictGet st.clients pid with
              | none => dictGet st.clients x
              | some partner =>
                if x = pid then
                  some { partner with partner_id := none, session_id := none }
                else dictGet st.clients x := by
  by_cases hx : x = c
  · subst hx
    rw [if_pos rfl]
    exact remove_client_get_self st x
  · rw [if_neg hx]
    unfold Matchmaker.remove_client
    cases hgc : dictGet st.clients c with
    | none => simp [hgc, dictGet_dictPop_ne _ _ _ hx]
    | some i =>
      cases hip : i.partner_id with
      | none => simp [hgc, hip, dictGet_dictPop_ne _ _ _ hx]
      | some pid =>
        by_cases hpe : pid.isEmpty
        · simp [hgc, hip, hpe, dictGet_dictPop_ne _ _ _ hx]
        · cases hgp : dictGet st.clients pid with
          | none => simp [hgc, hip, hpe, hgp, dictGet_dictPop_ne _ _ _ hx]
          | some partner =>
            by_cases hxp : x = pid
            · subst hxp
              simp [hgc, hip, hpe, hgp, dictGet_dictPop_ne _ _ _ hx,
                dictGet_dictSet_self]
            · simp [hgc, hip, hpe, hgp, hxp, dictGet_dictPop_ne _ _ _ hx,
                dictGet_dictSet_ne _ _ _ _ hxp]

/-- Lookup after `add_client`. -/
theorem add_client_get (st : MMState) (info : ClientInfo) (x : String) :
    dictGet (Matchmaker.add_client st info).clients x =
      if x = info.client_id then some info else dictGet st.clients x := by
  by_cases hx : x = info.client_id
  · subst hx
    simp [Matchmaker.add_client, dictGet_dictSet_self]
  · simp [Matchmaker.add_client, hx, dictGet_dictSet_ne _ _ _ _ hx]

/-- Registering a fresh client with a nonempty id preserves the registry invariant. -/
theorem regInv_register (st : MMState) (cid ip co re ci su ua : String)
    (hinv : RegInv st.clients) (hfresh : dictGet st.clients cid = none) (hne : cid ≠ "") :
    RegInv (Matchmaker.add_client st (freshInfo cid ip co re ci su ua)).clients := by
  obtain ⟨hkeys, hreg, hmut⟩ := hinv
  have hget : ∀ x,
      dictGet (Matchmaker.add_client st (freshInfo cid ip co re ci su ua)).clients x
        = if x = cid then some (freshInfo cid ip co re ci su ua)
          else dictGet st.clients x := by
    intro x
    rw [add_client_get]
    rfl
  refine ⟨?_, ?_, ?_⟩
  · intro a ia ha
    rw [hget] at ha
    by_cases hac : a = cid
    · rw [if_pos hac] at ha
      have hia := Option.some.inj ha
      subst hia
      exact ⟨hac.symm, hac ▸ hne⟩
    · rw [if_neg hac] at ha
      exact hkeys a ia ha
  · intro a ia p ha hp
    rw [hget] at ha
    by_cases hac : a = cid
    · rw [if_pos hac] at ha
      have hia := Option.some.inj ha
      rw [← hia] at hp
      exact absurd hp (by simp [freshInfo])
    · rw [if_neg hac] at ha
      obtain ⟨ib, hb⟩ := hreg a ia p ha hp
      by_cases hpc : p = cid
      · exact ⟨freshInfo cid ip co re ci su ua, by rw [hget, if_pos hpc]⟩
      · exact ⟨ib, by rw [hget, if_neg hpc]; exact hb⟩
  · intro a ia b ib ha hb hab
    rw [hget] at ha hb
    by_cases hac : a = cid
    · rw [if_pos hac] at ha
      have hia := Option.some.inj ha
      rw [← hia] at hab
      exact absurd hab (by simp [freshInfo])
    · rw [if_neg hac] at ha
      by_cases hbc : b = cid
      · subst hbc
        obtain ⟨ic, hc⟩ := hreg a ia b ha hab
        rw [hfresh] at hc
        exact Option.noConfusion hc
      · rw [if_neg hbc] at hb
        exact hmut a ia b ib ha hb hab

/-- A removal whose surviving entries are exactly the old ones (no entry
pointed at the removed client) preserves the registry invariant. -/
theorem regInv_popped (d d' : List (String × ClientInfo)) (c : String) (hinv : RegInv d)
    (hget : ∀ x, dictGet d' x = if x = c then none else dictGet d x)
    (hnp : ∀ x ix, dictGet d x = some ix → ix.partner_id ≠ some c) :
    RegInv d' := by
  obtain ⟨hkeys, hreg, hmut⟩ := hinv
  refine ⟨?_, ?_, ?_⟩
  · intro a ia ha
    rw [hget] at ha
    by_cases hac : a = c
    · rw [if_pos hac] at ha
      exact Option.noConfusion ha
    · rw [if_neg hac] at ha
      exact hkeys a ia ha
  · intro a ia p ha hp
    rw [hget] at ha
    by_cases hac : a = c
    · rw [if_pos hac] at ha
      exact Option.noConfusion ha
    · rw [if_neg hac] at ha
      obtain ⟨ib, hb⟩ := hreg a ia p ha hp
      have hpc : p ≠ c := fun he => hnp a ia ha (he ▸ hp)
      exact ⟨ib, by rw [hget, if_neg hpc]; exact hb⟩
  · intro a ia b ib ha hb hab
    rw [hget] at ha hb
    by_cases hac : a = c
    · rw [if_pos hac] at ha
      exact Option.noConfusion ha
    · rw [if_neg hac] at ha
      by_cases hbc : b = c
      · exact absurd (hbc ▸ hab) (hnp a ia ha)
      · rw [if_neg hbc] at hb
        exact hmut a ia b ib ha hb hab

/-- Removal preserves the registry invariant. -/
theorem regInv_remove (st : MMState) (c : String) (hinv : RegInv st.clients) :
    RegInv (Matchmaker.remove_client st c).1.clients := by
  obtain ⟨hkeys, hreg, hmut⟩ := hinv
  cases hgc : dictGet st.clients c with
  | none =>
    refine regInv_popped st.clients _ c ⟨hkeys, hreg, hmut⟩ (fun x => ?_)
      (fun x ix hx hp => ?_)
    · rw [remove_client_get, hgc]
    · obtain ⟨ib, hb⟩ := hreg x ix c hx hp
      rw [hgc] at hb
      exact Option.noConfusion hb
  | some i =>
    cases hip : i.partner_id with
    | none =>
      refine regInv_popped st.clients _ c ⟨hkeys, hreg, hmut⟩ (fun x => ?_)
        (fun x ix hx hp => ?_)
      · simp [remove_client_get, hgc, hip]
      · have := hmut x ix c i hx hgc hp
        rw [hip] at this
        exact Option.noConfusion this
    | some pid =>
      by_cases hpe : pid.isEmpty
      · refine regInv_popped st.clients _ c ⟨hkeys, hreg, hmut⟩ (fun x => ?_)
          (fun x ix hx hp => ?_)
        · simp [remove_client_get, hgc, hip, hpe]
        · have hpx := hmut x ix c i hx hgc hp
          rw [hip] at hpx
          have hxpid : pid = x := Option.some.inj hpx
          have hxne := (hkeys x ix hx).2
          rw [← hxpid] at hxne
          exact hxne ((String.isEmpty_iff pid).mp hpe)
      · cases hgp : dictGet st.clients pid with
        | none =>
          refine regInv_popped st.clients _ c ⟨hkeys, hreg, hmut⟩ (fun x => ?_)
            (fun x ix hx hp => ?_)
          · simp [remove_client_get, hgc, hip, hpe, hgp]
          · have hpx := hmut x ix c i hx hgc hp
            rw [hip] at hpx
            have hxpid : pid = x := Option.some.inj hpx
            rw [← hxpid] at hx
            rw [hgp] at hx
            exact Option.noConfusion hx
        | some partner =>
          have hpartner_c : partner.partner_id = some c := hmut c i pid partner hgc hgp hip
          have hget : ∀ x, dictGet (Matchmaker.remove_client st c).1.clients x =
              if x = c then none
              else if x = pid then
                some { partner with partner_id := none, session_id := none }
              else dictGet st.clients x := by
            intro x
            by_cases hx : x = c
            · simp [remove_client_get, hgc, hip, hx]
            · simp [remove_client_get, hgc, hip, hx, hpe, hgp]
          refine ⟨?_, ?_, ?_⟩
          · intro a ia ha
            rw [hget] at ha
            by_cases hac : a = c
            · rw [if_pos hac] at ha
              exact Option.noConfusion ha
            · rw [if_neg hac] at ha
              by_cases hap : a = pid
              · rw [if_pos hap] at ha
                have hia := Option.some.inj ha
                subst hia
                exact ⟨by simpa [hap] using (hkeys pid partner hgp).1,
                       hap ▸ (hkeys pid partner hgp).2⟩
              · rw [if_neg hap] at ha
                exact hkeys a ia ha
          · intro a ia p ha hp
            rw [hget] at ha
            by_cases hac : a = c
            · rw [if_pos hac] at ha
              exact Option.noConfusion ha
            · rw [if_neg hac] at ha
              by_cases hap : a = pid
              · rw [if_pos hap] at ha
                have hia := Option.some.inj ha
                rw [← hia] at hp
                exact absurd hp (by simp)
              · rw [if_neg hap] at ha
                obtain ⟨ib, hb⟩ := hreg a ia p ha hp
                have hpc : p ≠ c := by
                  intro he
                  have := hmut a ia c i ha hgc (he ▸ hp)
                  rw [hip] at this
                  exact hap (Option.some.inj this).symm
                by_cases hppid : p = pid
                · exact ⟨{ partner with partner_id := none, session_id := none },
                    by rw [hget, if_neg hpc, if_pos hppid]⟩
                · exact ⟨ib, by rw [hget, if_neg hpc, if_neg hppid]; exact hb⟩
          · intro a ia b ib ha hb hab
            rw [hget] at ha hb
            by_cases hac : a = c
            · rw [if_pos hac] at ha
              exact Option.noConfusion ha
            · rw [if_neg hac] at ha
              by_cases hap : a = pid
              · rw [if_pos hap] at ha
                have hia := Option.some.inj ha
                rw [← hia] at hab
                exact absurd hab (by simp)
              · rw [if_neg hap] at ha
                by_cases hbc : b = c
                · have := hmut a ia c i ha hgc (hbc ▸ hab)
                  rw [hip] at this
                  exact absurd (Option.some.inj this).symm hap
                · by_cases hbp : b = pid
                  · have := hmut a ia pid partner ha hgp (hbp ▸ hab)
                    rw [hpartner_c] at this
                    exact absurd (Option.some.inj this).symm hac
                  · rw [if_neg hbc, if_neg hbp] at hb
                    exact hmut a ia b ib ha hb hab

/-- The mutating branch of `Matchmaker.match` preserves the registry
invariant: pairing two registered, partner-free, distinct clients keeps keys
consistent, references registered and partners mutual. -/
theorem regInv_pair (d : List (String × ClientInfo)) (cid w sid : String)
    (me wi : ClientInfo) (hinv : RegInv d) (hg : dictGet d cid = some me)
    (hgw : dictGet d w = some wi) (hmep : me.partner_id = none)
    (hwip : wi.partner_id = none) (hwc : ¬w = cid) :
    RegInv (dictSet (dictSet d cid { me with partner_id := some w, session_id := some sid })
      w { wi with partner_id := some cid, session_id := some sid }) := by
  obtain ⟨hkeys, hreg, hmut⟩ := hinv
  have hget : ∀ x, dictGet (dictSet (dictSet d cid
        { me with partner_id := some w, session_id := some sid }) w
        { wi with partner_id := some cid, session_id := some sid }) x =
      if x = w then some { wi with partner_id := some cid, session_id := some sid }
      else if x = cid then some { me with partner_id := some w, session_id := some sid }
      else dictGet d x := by
    intro x
    by_cases hxw : x = w
    · subst hxw
      rw [if_pos rfl, dictGet_dictSet_self]
    · rw [if_neg hxw, dictGet_dictSet_ne _ _ _ _ hxw]
      by_cases hxc : x = cid
      · subst hxc
        rw [if_pos rfl, dictGet_dictSet_self]
      · rw [if_neg hxc, dictGet_dictSet_ne _ _ _ _ hxc]
  refine ⟨?_, ?_, ?_⟩
  · intro a ia ha
    rw [hget] at ha
    by_cases haw : a = w
    · rw [if_pos haw] at ha
      have hia := Option.some.inj ha
      subst hia
      exact ⟨by simpa [haw] using (hkeys w wi hgw).1, haw ▸ (hkeys w wi hgw).2⟩
    · rw [if_neg haw] at ha
      by_cases hac : a = cid
      · rw [if_pos hac] at ha
        have hia := Option.some.inj ha
        subst hia
        exact ⟨by simpa [hac] using (hkeys cid me hg).1, hac ▸ (hkeys cid me hg).2⟩
      · rw [if_neg hac] at ha
        exact hkeys a ia ha
  · intro a ia p ha hp
    rw [hget] at ha
    by_cases haw : a = w
    · rw [if_pos haw] at ha
      have hia := Option.some.inj ha
      rw [← hia] at hp
      simp only at hp
      have hpcid := Option.some.inj hp
      subst hpcid
      exact ⟨{ me with partner_id := some w, session_id := some sid },
        by rw [hget, if_neg (fun he : cid = w => hwc he.symm), if_pos rfl]⟩
    · rw [if_neg haw] at ha
      by_cases hac : a = cid
      · rw [if_pos hac] at ha
        have hia := Option.some.inj ha
        rw [← hia] at hp
        simp only at hp
        have hpw := Option.some.inj hp
        subst hpw
        exact ⟨{ wi with partner_id := some cid, session_id := some sid },
          by rw [hget, if_pos rfl]⟩
      · rw [if_neg hac] at ha
        obtain ⟨ib, hb⟩ := hreg a ia p ha hp
        by_cases hpwq : p = w
        · exact ⟨{ wi with partner_id := some cid, session_id := some sid },
            by rw [hget, if_pos hpwq]⟩
        · by_cases hpcq : p = cid
          · exact ⟨{ me with partner_id := some w, session_id := some sid },
              by rw [hget, if_neg hpwq, if_pos hpcq]⟩
          · exact ⟨ib, by rw [hget, if_neg hpwq, if_neg hpcq]; exact hb⟩
  · intro a ia b ib ha hb hab
    rw [hget] at ha hb
    by_cases haw : a = w
    · rw [if_pos haw] at ha
      have hia := Option.some.inj ha
      rw [← hia] at hab
      simp only at hab
      have hbcid := Option.some.inj hab
      subst hbcid
      rw [if_neg (fun he : cid = w => hwc he.symm), if_pos rfl] at hb
      have hib := Option.some.inj hb
      rw [← hib]
      simp only
      rw [haw]
    · rw [if_neg haw] at ha
      by_cases hac : a = cid
      · rw [if_pos hac] at ha
        have hia := Option.some.inj ha
        rw [← hia] at hab
        simp only at hab
        have hbw := Option.some.inj hab
        subst hbw
        rw [if_pos rfl] at hb
        have hib := Option.some.inj hb
        rw [← hib]
        simp only
        rw [hac]
      · rw [if_neg hac] at ha
        by_cases hbw : b = w
        · subst hbw
          have := hmut a ia b wi ha hgw hab
          rw [hwip] at this
          exact Option.noConfusion this
        · by_cases hbc : b = cid
          · subst hbc
            have := hmut a ia b me ha hg hab
            rw [hmep] at this
            exact Option.noConfusion this
          · rw [if_neg hbw, if_neg hbc] at hb
            exact hmut a ia b ib ha hb hab

/-- A match attempt preserves the registry invariant. -/
theorem regInv_match (st : MMState) (cid sid : String) (hinv : RegInv st.clients) :
    RegInv (Matchmaker.match_client sid st cid).1.clients := by
  cases hg : dictGet st.clients cid with
  | none => simpa [Matchmaker.match_client, hg] using hinv
  | some me =>
    by_cases hpt : optTruthy me.partner_id
    · simpa [Matchmaker.match_client, hg, hpt] using hinv
    · have hptf : optTruthy me.partner_id = false := by simpa using hpt
      have hmep : me.partner_id = none :=
        partner_none_of_not_truthy st.clients hinv cid me hg hptf
      cases hw : st.waiting with
      | none => simpa [Matchmaker.match_client, hg, hptf, hw] using hinv
      | some w =>
        by_cases hwe : w.isEmpty
        · simpa [Matchmaker.match_client, hg, hptf, hw, hwe] using hinv
        · cases hgw : dictGet st.clients w with
          | none => simpa [Matchmaker.match_client, hg, hptf, hw, hwe, hgw] using hinv
          | some wi =>
            by_cases hwt : optTruthy wi.partner_id
            · simpa [Matchmaker.match_client, hg, hptf, hw, hwe, hgw, hwt] using hinv
            · by_cases hwc : w = cid
              · subst hwc
                simpa [Matchmaker.match_client, hg, hptf, hw, hwe, hgw, hwt] using hinv
              · have hwtf : optTruthy wi.partner_id = false := by simpa using hwt
                have hwip : wi.partner_id = none :=
                  partner_none_of_not_truthy st.clients hinv w wi hgw hwtf
                have hred : (Matchmaker.match_client sid st cid).1.clients =
                    dictSet (dictSet st.clients cid
                      { me with partner_id := some w, session_id := some sid }) w
                      { wi with partner_id := some cid, session_id := some sid } := by
                  simp [Matchmaker.match_client, hg, hptf, hw, hwe, hgw, hwt, hwc]
                rw [hred]
                exact regInv_pair st.clients cid w sid me wi hinv hg hgw hmep hwip hwc

/-- Every state reachable by fresh nonempty registrations, removals and match
attempts satisfies the registry invariant. -/
theorem regInv_reachF (st : MMState) (h : ReachF st) : RegInv st.clients := by
  induction h with
  | init =>
    refine ⟨fun a ia ha => ?_, fun a ia p ha hp => ?_, fun a ia b ib ha hb hab => ?_⟩
    · exact Option.noConfusion ha
    · exact Option.noConfusion ha
    · exact Option.noConfusion ha
  | register st cid ip co re ci su ua h hfresh hne ih =>
    exact regInv_register st cid ip co re ci su ua ih hfresh hne
  | remove st cid h ih => exact regInv_remove st cid ih
  | attempt st cid sid h ih => exact regInv_match st cid sid ih

/-- C1 amended: after any sequence of registrations (with nonempty, not currently
registered client ids), removals and match attempts, partner references
between clients present in the registry are symmetric:
`A.partner_id = B.client_id` implies `B.partner_id = A.client_id`. -/
theorem c1_partner_symmetry (st : MMState) (h : ReachF st) (a b : String)
    (ia ib : ClientInfo) (ha : dictGet st.clients a = some ia)
    (hb : dictGet st.clients b = some ib)
    (hab : ia.partner_id = some ib.client_id) :
    ib.partner_id = some ia.client_id := by
  obtain ⟨hkeys, hreg, hmut⟩ := regInv_reachF st h
  have hbid := (hkeys b ib hb).1
  have haid := (hkeys a ia ha).1
  rw [hbid] at hab
  rw [haid]
  exact hmut a ia b ib ha hb hab

/-- Stage 1 of the duplicate-registration trace: register `A`. -/
def stC1a : MMState :=
  Matchmaker.add_client ⟨[], none⟩ (freshInfo "A" "i" "c" "r" "t" "s" "u")

/-- Stage 2: register `B`. -/
def stC1b : MMState :=
  Matchmaker.add_client stC1a (freshInfo "B" "i" "c" "r" "t" "s" "u")

/-- Stage 3: `A` attempts a match and starts waiting. -/
def stC1c : MMState := (Matchmaker.match_client "S1" stC1b "A").1

/-- Stage 4: `B` attempts a match and pairs with `A`. -/
def stC1d : MMState := (Matchmaker.match_client "S1" stC1c "B").1

/-- Stage 5: duplicate registration of `A` (page reload) while `B` still points at
it. -/
def stC1e : MMState :=
  Matchmaker.add_client stC1d (freshInfo "A" "i" "c" "r" "t" "s" "u")

/-- Counterexample to C1 as stated: after registering `A` and `B`, match `A`,
match `B`, then registering `A` again (a duplicate, allowed by `add_client`),
both clients are present, `B.partner_id = A.client_id`, but
`A.partner_id ≠ B.client_id` — the symmetry invariant is violated. -/
theorem c1_counterexample :
    dictGet stC1e.clients "A" = some (freshInfo "A" "i" "c" "r" "t" "s" "u") ∧
    dictGet stC1e.clients "B"
      = some { freshInfo "B" "i" "c" "r" "t" "s" "u" with
                partner_id := some "A", session_id := some "S1" } ∧
    ({ freshInfo "B" "i" "c" "r" "t" "s" "u" with
        partner_id := some "A", session_id := some "S1" } : ClientInfo).partner_id
      = some (freshInfo "A" "i" "c" "r" "t" "s" "u").client_id ∧
    (freshInfo "A" "i" "c" "r" "t" "s" "u").partner_id
      ≠ some ({ freshInfo "B" "i" "c" "r" "t" "s" "u" with
                 partner_id := some "A", session_id := some "S1" } : ClientInfo).client_id := by
  refine ⟨?_, ?_, ?_, ?_⟩ <;> decide

/-- Witness for C1 amended, on the reachable four-step state `stC1d`: `B`
points at `A` and the theorem yields that `A` points back at `B`. -/
theorem c1_partner_symmetry_witness :
    ({ freshInfo "A" "i" "c" "r" "t" "s" "u" with
        partner_id := some "B", session_id := some "S1" } : ClientInfo).partner_id
      = some ({ freshInfo "B" "i" "c" "r" "t" "s" "u" with
                 partner_id := some "A", session_id := some "S1" } : ClientInfo).client_id := by
  have hr : ReachF stC1d :=
    ReachF.attempt stC1c "B" "S1" (ReachF.attempt stC1b "A" "S1"
      (ReachF.register stC1a "B" "i" "c" "r" "t" "s" "u"
        (ReachF.register ⟨[], none⟩ "A" "i" "c" "r" "t" "s" "u" ReachF.init rfl (by decide))
        (by decide) (by decide)))
  exact c1_partner_symmetry stC1d hr "B" "A" _ _ rfl rfl rfl

/-! ### C5: the waiting-slot invariant

Proved over states reachable under the server's full operation set
(duplicate registrations allowed, `next`/`disconnect` clears included), restricted
to nonempty client ids.  The restriction is forced: `Matchmaker.match` tests
the slot with Python truthiness (`not self.waiting`), so an empty-string
occupant is treated as an empty slot — `c5_counterexample` shows a
registered, partner-free occupant `""` being displaced by a third party. -/

/-- States reachable under registrations (nonempty ids, duplicates allowed),
removals, match attempts and session force-ends. -/
inductive Reach : MMState → Prop where
  | init : Reach ⟨[], none⟩
  | register (st : MMState) (cid ip co re ci su ua : String) (h : Reach st)
      (hne : cid ≠ "") :
      Reach (Matchmaker.add_client st (freshInfo cid ip co re ci su ua))
  | remove (st : MMState) (cid : String) (h : Reach st) :
      Reach (Matchmaker.remove_client st cid).1
  | attempt (st : MMState) (cid sid : String) (h : Reach st) :
      Reach (Matchmaker.match_client sid st cid).1
  | forceEnd (st : MMState) (cid : String) (h : Reach st) :
      Reach (Matchmaker.force_end_my_session st cid).1

/-- All registry keys are nonempty. -/
def keysNonempty (d : List (String × ClientInfo)) : Prop :=
  ∀ a ia, dictGet d a = some ia → a ≠ ""

/-- All `partner_id` values are nonempty (hence truthy when present). -/
def partnerValsNonempty (d : List (String × ClientInfo)) : Prop :=
  ∀ a ia p, dictGet d a = some ia → ia.partner_id = some p → p ≠ ""

/-- The waiting-slot invariant: a non-empty slot holds a registered,
partner-free client. -/
def waitingOk (st : MMState) : Prop :=
  ∀ w, st.waiting = some w →
    ∃ wi, dictGet st.clients w = some wi ∧ wi.partner_id = none

/-- The combined invariant behind C5. -/
def SlotInv (st : MMState) : Prop :=
  keysNonempty st.clients ∧ partnerValsNonempty st.clients ∧ waitingOk st

/-- Under nonempty partner values, a falsy `partner_id` is exactly `None`. -/
theorem partner_none_of_pv (d : List (String × ClientInfo))
    (hpv : partnerValsNonempty d) (a : String) (ia : ClientInfo)
    (ha : dictGet d a = some ia) (hf : optTruthy ia.partner_id = false) :
    ia.partner_id = none := by
  cases hip : ia.partner_id with
  | none => rfl
  | some s =>
    rw [hip] at hf
    simp only [optTruthy, Bool.not_eq_false'] at hf
    exact absurd ((String.isEmpty_iff s).mp hf) (hpv a ia s ha hip)

/-- The slot after `remove_client`. -/
theorem remove_client_waiting (st : MMState) (c : String) :
    (Matchmaker.remove_client st c).1.waiting =
      if st.waiting = some c then none else st.waiting := by
  unfold Matchmaker.remove_client
  rfl

/-- `force_end_my_session` never touches the slot. -/
theorem force_end_waiting (st : MMState) (cid : String) :
    (Matchmaker.force_end_my_session st cid).1.waiting = st.waiting := by
  cases hg : dictGet st.clients cid <;>
    simp [Matchmaker.force_end_my_session, hg]

/-- Every entry surviving `remove_client` is the removed key (gone), an old
entry, or a cleared old entry. -/
theorem remove_client_entry (st : MMState) (c x : String) :
    (x = c ∧ dictGet (Matchmaker.remove_client st c).1.clients x = none) ∨
    dictGet (Matchmaker.remove_client st c).1.clients x = dictGet st.clients x ∨
    ∃ old, dictGet st.clients x = some old ∧
      dictGet (Matchmaker.remove_client st c).1.clients x
        = some { old with partner_id := none, session_id := none } := by
  rw [remove_client_get]
  by_cases hx : x = c
  · left
    exact ⟨hx, by rw [if_pos hx]⟩
  · rw [if_neg hx]
    cases hgc : dictGet st.clients c with
    | none => right; left; rfl
    | some i =>
      cases hip : i.partner_id with
      | none => right; left; simp [hip]
      | some pid =>
        by_cases hpe : pid.isEmpty
        · right; left; simp [hip, hpe]
        · cases hgp : dictGet st.clients pid with
          | none => right; left; simp [hip, hpe, hgp]
          | some partner =>
            by_cases hxp : x = pid
            · right; right
              exact ⟨partner, hxp ▸ hgp, by simp [hip, hpe, hgp, hxp]⟩
            · right; left
              simp [hip, hpe, hgp, hxp]

/-- Every entry after `force_end_my_session` is an old entry or a cleared old
entry (and the key set is unchanged). -/
theorem force_end_entry (st : MMState) (cid x : String) :
    dictGet (Matchmaker.force_end_my_session st cid).1.clients x
        = dictGet st.clients x ∨
    ∃ old, dictGet st.clients x = some old ∧
      dictGet (Matchmaker.force_end_my_session st cid).1.clients x
        = some { old with partner_id := none, session_id := none } := by
  cases hg : dictGet st.clients cid with
  | none =>
    left
    simp [Matchmaker.force_end_my_session, hg]
  | some me =>
    cases hip : me.partner_id with
    | none =>
      by_cases hx : x = cid
      · right
        refine ⟨me, hx ▸ hg, ?_⟩
        subst hx
        simp [Matchmaker.force_end_my_session, hg, hip, dictGet_dictSet_self]
      · left
        simp [Matchmaker.force_end_my_session, hg, hip,
          dictGet_dictSet_ne _ _ _ _ hx]
    | some pid =>
      by_cases hpe : pid.isEmpty
      · by_cases hx : x = cid
        · right
          refine ⟨me, hx ▸ hg, ?_⟩
          subst hx
          simp [Matchmaker.force_end_my_session, hg, hip, hpe, dictGet_dictSet_self]
        · left
          simp [Matchmaker.force_end_my_session, hg, hip, hpe,
            dictGet_dictSet_ne _ _ _ _ hx]
      · by_cases hpc : pid = cid
        · -- the partner aliases the requester; both updates hit the same key
          by_cases hx : x = cid
          · right
            refine ⟨me, hx ▸ hg, ?_⟩
            subst hx
            subst hpc
            simp [Matchmaker.force_end_my_session, hg, hip, hpe,
              dictGet_dictSet_self]
          · left
            subst hpc
            simp [Matchmaker.force_end_my_session, hg, hip, hpe,
              dictGet_dictSet_self, dictGet_dictSet_ne _ _ _ _ hx]
        · cases hgp : dictGet st.clients pid with
          | none =>
            by_cases hx : x = cid
            · right
              refine ⟨me, hx ▸ hg, ?_⟩
              subst hx
              simp [Matchmaker.force_end_my_session, hg, hip, hpe,
                dictGet_dictSet_self, dictGet_dictSet_ne _ _ _ _ hpc, hgp]
            · left
              simp [Matchmaker.force_end_my_session, hg, hip, hpe,
                dictGet_dictSet_ne _ _ _ _ hpc, hgp,
                dictGet_dictSet_ne _ _ _ _ hx]
          | some partner =>
            by_cases hx : x = cid
            · right
              refine ⟨me, hx ▸ hg, ?_⟩
              subst hx
              have hne2 : ¬x = pid := fun he => hpc he.symm
              simp [Matchmaker.force_end_my_session, hg, hip, hpe,
                dictGet_dictSet_ne _ _ _ _ hpc, hgp,
                dictGet_dictSet_ne _ _ _ _ hne2, dictGet_dictSet_self]
            · by_cases hxp : x = pid
              · right
                refine ⟨partner, hxp ▸ hgp, ?_⟩
                subst hxp
                simp [Matchmaker.force_end_my_session, hg, hip, hpe,
                  dictGet_dictSet_ne _ _ _ _ hpc, hgp, dictGet_dictSet_self]
              · left
                simp [Matchmaker.force_end_my_session, hg, hip, hpe,
                  dictGet_dictSet_ne _ _ _ _ hpc, hgp,
                  dictGet_dictSet_ne _ _ _ _ hxp, dictGet_dictSet_ne _ _ _ _ hx]

/-- Registering a client with a nonempty id (duplicate or not) preserves the slot invariant. -/
theorem slotInv_register (st : MMState) (cid ip co re ci su ua : String)
    (hinv : SlotInv st) (hne : cid ≠ "") :
    SlotInv (Matchmaker.add_client st (freshInfo cid ip co re ci su ua)) := by
  obtain ⟨hkeys, hpv, hwait⟩ := hinv
  have hget : ∀ x,
      dictGet (Matchmaker.add_client st (freshInfo cid ip co re ci su ua)).clients x
        = if x = cid then some (freshInfo cid ip co re ci su ua)
          else dictGet st.clients x := by
    intro x
    rw [add_client_get]
    rfl
  refine ⟨?_, ?_, ?_⟩
  · intro a ia ha
    rw [hget] at ha
    by_cases hac : a = cid
    · exact hac ▸ hne
    · rw [if_neg hac] at ha
      exact hkeys a ia ha
  · intro a ia p ha hp
    rw [hget] at ha
    by_cases hac : a = cid
    · rw [if_pos hac] at ha
      rw [← Option.some.inj ha] at hp
      exact absurd hp (by simp [freshInfo])
    · rw [if_neg hac] at ha
      exact hpv a ia p ha hp
  · intro w hw
    obtain ⟨wi, hwi, hfree⟩ := hwait w hw
    by_cases hwc : w = cid
    · exact ⟨freshInfo cid ip co re ci su ua, by rw [hget, if_pos hwc], rfl⟩
    · exact ⟨wi, by rw [hget, if_neg hwc]; exact hwi, hfree⟩

/-- Removal preserves the slot invariant. -/
theorem slotInv_remove (st : MMState) (c : String) (hinv : SlotInv st) :
    SlotInv (Matchmaker.remove_client st c).1 := by
  obtain ⟨hkeys, hpv, hwait⟩ := hinv
  refine ⟨?_, ?_, ?_⟩
  · intro a ia ha
    rcases remove_client_entry st c a with ⟨_, hcase⟩ | hcase | ⟨old, hold, hcase⟩
    · rw [hcase] at ha
      exact Option.noConfusion ha
    · rw [hcase] at ha
      exact hkeys a ia ha
    · exact hkeys a old hold
  · intro a ia p ha hp
    rcases remove_client_entry st c a with ⟨_, hcase⟩ | hcase | ⟨old, hold, hcase⟩
    · rw [hcase] at ha
      exact Option.noConfusion ha
    · rw [hcase] at ha
      exact hpv a ia p ha hp
    · rw [hcase] at ha
      rw [← Option.some.inj ha] at hp
      exact absurd hp (by simp)
  · intro w hw
    rw [remove_client_waiting] at hw
    by_cases hwc : st.waiting = some c
    · rw [if_pos hwc] at hw
      exact Option.noConfusion hw
    · rw [if_neg hwc] at hw
      obtain ⟨wi, hwi, hfree⟩ := hwait w hw
      have hwnec : ¬w = c := fun he => hwc (he ▸ hw)
      rcases remove_client_entry st c w with ⟨hwc2, _⟩ | hcase | ⟨old, hold, hcase⟩
      · exact absurd hwc2 hwnec
      · exact ⟨wi, by rw [hcase]; exact hwi, hfree⟩
      · refine ⟨{ old with partner_id := none, session_id := none }, hcase, rfl⟩

/-- A session force-end preserves the slot invariant. -/
theorem slotInv_force (st : MMState) (c : String) (hinv : SlotInv st) :
    SlotInv (Matchmaker.force_end_my_session st c).1 := by
  obtain ⟨hkeys, hpv, hwait⟩ := hinv
  refine ⟨?_, ?_, ?_⟩
  · intro a ia ha
    rcases force_end_entry st c a with hcase | ⟨old, hold, hcase⟩
    · rw [hcase] at ha
      exact hkeys a ia ha
    · exact hkeys a old hold
  · intro a ia p ha hp
    rcases force_end_entry st c a with hcase | ⟨old, hold, hcase⟩
    · rw [hcase] at ha
      exact hpv a ia p ha hp
    · rw [hcase] at ha
      rw [← Option.some.inj ha] at hp
      exact absurd hp (by simp)
  · intro w hw
    rw [force_end_waiting] at hw
    obtain ⟨wi, hwi, hfree⟩ := hwait w hw
    rcases force_end_entry st c w with hcase | ⟨old, hold, hcase⟩
    · exact ⟨wi, by rw [hcase]; exact hwi, hfree⟩
    · exact ⟨{ old with partner_id := none, session_id := none }, hcase, rfl⟩

/-- A match attempt preserves the slot invariant. -/
theorem slotInv_match (st : MMState) (cid sid : String) (hinv : SlotInv st) :
    SlotInv (Matchmaker.match_client sid st cid).1 := by
  obtain ⟨hkeys, hpv, hwait⟩ := hinv
  cases hg : dictGet st.clients cid with
  | none => simpa [Matchmaker.match_client, hg] using And.intro hkeys (And.intro hpv hwait)
  | some me =>
    by_cases hpt : optTruthy me.partner_id
    · simpa [Matchmaker.match_client, hg, hpt] using And.intro hkeys (And.intro hpv hwait)
    · have hptf : optTruthy me.partner_id = false := by simpa using hpt
      have hmep : me.partner_id = none := partner_none_of_pv st.clients hpv cid me hg hptf
      have hwaitcid : SlotInv ⟨st.clients, some cid⟩ := by
        refine ⟨hkeys, hpv, ?_⟩
        intro w hw
        have hwcid := Option.some.inj hw
        exact ⟨me, hwcid ▸ hg, hmep⟩
      cases hw : st.waiting with
      | none => simpa [Matchmaker.match_client, hg, hptf, hw] using hwaitcid
      | some w =>
        by_cases hwe : w.isEmpty
        · simpa [Matchmaker.match_client, hg, hptf, hw, hwe] using hwaitcid
        · cases hgw : dictGet st.clients w with
          | none => simpa [Matchmaker.match_client, hg, hptf, hw, hwe, hgw] using hwaitcid
          | some wi =>
            by_cases hwt : optTruthy wi.partner_id
            · simpa [Matchmaker.match_client, hg, hptf, hw, hwe, hgw, hwt] using hwaitcid
            · by_cases hwc : w = cid
              · subst hwc
                have : SlotInv st := ⟨hkeys, hpv, hwait⟩
                simpa [Matchmaker.match_client, hg, hptf, hw, hwe, hgw, hwt] using this
              · have hred : (Matchmaker.match_client sid st cid).1 =
                    ⟨dictSet (dictSet st.clients cid
                      { me with partner_id := some w, session_id := some sid }) w
                      { wi with partner_id := some cid, session_id := some sid }, none⟩ := by
                  simp [Matchmaker.match_client, hg, hptf, hw, hwe, hgw, hwt, hwc]
                rw [hred]
                have hget : ∀ x, dictGet (dictSet (dictSet st.clients cid
                      { me with partner_id := some w, session_id := some sid }) w
                      { wi with partner_id := some cid, session_id := some sid }) x =
                    if x = w then
                      some { wi with partner_id := some cid, session_id := some sid }
                    else if x = cid then
                      some { me with partner_id := some w, session_id := some sid }
                    else dictGet st.clients x := by
                  intro x
                  by_cases hxw : x = w
                  · subst hxw
                    rw [if_pos rfl, dictGet_dictSet_self]
                  · rw [if_neg hxw, dictGet_dictSet_ne _ _ _ _ hxw]
                    by_cases hxc : x = cid
                    · subst hxc
                      rw [if_pos rfl, dictGet_dictSet_self]
                    · rw [if_neg hxc, dictGet_dictSet_ne _ _ _ _ hxc]
                refine ⟨?_, ?_, ?_⟩
                · intro a ia ha
                  rw [hget] at ha
                  by_cases haw : a = w
                  · intro he
                    exact hwe ((String.isEmpty_iff w).mpr (haw ▸ he))
                  · rw [if_neg haw] at ha
                    by_cases hac : a = cid
                    · exact hac ▸ hkeys cid me hg
                    · rw [if_neg hac] at ha
                      exact hkeys a ia ha
                · intro a ia p ha hp
                  rw [hget] at ha
                  by_cases haw : a = w
                  · rw [if_pos haw] at ha
                    rw [← Option.some.inj ha] at hp
                    simp only at hp
                    rw [← Option.some.inj hp]
                    exact hkeys cid me hg
                  · rw [if_neg haw] at ha
                    by_cases hac : a = cid
                    · rw [if_pos hac] at ha
                      rw [← Option.some.inj ha] at hp
                      simp only at hp
                      rw [← Option.some.inj hp]
                      intro he
                      exact hwe ((String.isEmpty_iff w).mpr he)
                    · rw [if_neg hac] at ha
                      exact hpv a ia p ha hp
                · intro v hv
                  exact Option.noConfusion hv

/-- Every reachable state satisfies the slot invariant. -/
theorem slotInv_reach (st : MMState) (h : Reach st) : SlotInv st := by
  induction h with
  | init =>
    refine ⟨fun a ia ha => ?_, fun a ia p ha hp => ?_, fun w hw => ?_⟩
    · exact Option.noConfusion ha
    · exact Option.noConfusion ha
    · exact Option.noConfusion hw
  | register st cid ip co re ci su ua h hne ih =>
    exact slotInv_register st cid ip co re ci su ua ih hne
  | remove st cid h ih => exact slotInv_remove st cid ih
  | attempt st cid sid h ih => exact slotInv_match st cid sid ih
  | forceEnd st cid h ih => exact slotInv_force st cid ih

/-- C5 amended: in every reachable state (nonempty client ids), a non-empty
slot holds a registered, partner-free client; a third party's match attempt
either leaves the slot unchanged and reports not-matched (its own
absent/already-partnered cases) or pairs the requester with the occupant,
clearing the slot; and removing a non-occupant never touches the slot.  As
literally stated the claim fails for the empty-string client id, which the
truthiness test treats as an empty slot (`c5_counterexample`). -/
theorem c5_waiting_slot (st : MMState) (h : Reach st) :
    (∀ w, st.waiting = some w →
      ∃ wi, dictGet st.clients w = some wi ∧ wi.partner_id = none) ∧
    (∀ w cid sid, st.waiting = some w → cid ≠ w →
      ((Matchmaker.match_client sid st cid).1.waiting = st.waiting ∧
        (Matchmaker.match_client sid st cid).2.2.1 = false) ∨
      ((Matchmaker.match_client sid st cid).1.waiting = none ∧
        ∃ wi', dictGet (Matchmaker.match_client sid st cid).1.clients w = some wi' ∧
          wi'.partner_id = some cid)) ∧
    (∀ w c, st.waiting = some w → c ≠ w →
      (Matchmaker.remove_client st c).1.waiting = some w) := by
  obtain ⟨hkeys, hpv, hwait⟩ := slotInv_reach st h
  refine ⟨hwait, ?_, ?_⟩
  · intro w cid sid hw hcw
    obtain ⟨wi, hgw, hfree⟩ := hwait w hw
    have hwne : w ≠ "" := hkeys w wi hgw
    have hwe : w.isEmpty = false := by
      cases he : w.isEmpty
      · rfl
      · exact absurd ((String.isEmpty_iff w).mp he) hwne
    cases hg : dictGet st.clients cid with
    | none =>
      left
      simp [Matchmaker.match_client, hg]
    | some me =>
      by_cases hpt : optTruthy me.partner_id
      · left
        simp [Matchmaker.match_client, hg, hpt]
      · right
        have hptf : optTruthy me.partner_id = false := by simpa using hpt
        have hwt : optTruthy wi.partner_id = false := by rw [hfree]; rfl
        have hwcid : ¬w = cid := fun he => hcw he.symm
        constructor
        · simp [Matchmaker.match_client, hg, hptf, hw, hwe, hgw, hwt, hwcid]
        · refine ⟨{ wi with partner_id := some cid, session_id := some sid }, ?_, rfl⟩
          have hred : (Matchmaker.match_client sid st cid).1.clients =
              dictSet (dictSet st.clients cid
                { me with partner_id := some w, session_id := some sid }) w
                { wi with partner_id := some cid, session_id := some sid } := by
            simp [Matchmaker.match_client, hg, hptf, hw, hwe, hgw, hwt, hwcid]
          rw [hred, dictGet_dictSet_self]
  · intro w c hw hcw
    have hne : ¬st.waiting = some c := by
      rw [hw]
      intro he
      exact hcw (Option.some.inj he).symm
    rw [remove_client_waiting, if_neg hne]
    exact hw

/-- Stage 1 of the empty-id trace: register the empty-string client. -/
def stC5a : MMState :=
  Matchmaker.add_client ⟨[], none⟩ (freshInfo "" "i" "c" "r" "t" "s" "u")

/-- Stage 2: the empty-string client starts waiting. -/
def stC5b : MMState := (Matchmaker.match_client "S9" stC5a "").1

/-- Stage 3: register `C`. -/
def stC5c : MMState :=
  Matchmaker.add_client stC5b (freshInfo "C" "i" "c" "r" "t" "s" "u")

/-- Stage 4: `C` attempts a match and displaces the waiting `""` client. -/
def stC5d : MMState := (Matchmaker.match_client "S9" stC5c "C").1

/-- Counterexample to C5 as stated: the occupant `""` is registered and
partner-free (a valid waiting client), yet `C`'s match attempt overwrites
the slot with `C` — `not self.waiting` is true for the empty string — and
`""` is left registered, unpaired and no longer waiting. -/
theorem c5_counterexample :
    stC5c.waiting = some "" ∧
    dictGet stC5c.clients "" = some (freshInfo "" "i" "c" "r" "t" "s" "u") ∧
    (freshInfo "" "i" "c" "r" "t" "s" "u").partner_id = none ∧
    stC5d.waiting = some "C" ∧
    dictGet stC5d.clients "" = some (freshInfo "" "i" "c" "r" "t" "s" "u") := by
  refine ⟨?_, ?_, ?_, ?_, ?_⟩ <;> decide

/-- A small reachable state for the C5 witness: `A` registered and waiting. -/
def stW5 : MMState :=
  (Matchmaker.match_client "SW" (Matchmaker.add_client ⟨[], none⟩
    (freshInfo "A" "i" "c" "r" "t" "s" "u")) "A").1

/-- Witness for C5 amended at `stW5`: the occupant `A` is registered and
partner-free, an unregistered third party's match attempt leaves the slot
alone, and removing a non-occupant keeps `A` waiting. -/
theorem c5_waiting_slot_witness :
    (∃ wi, dictGet stW5.clients "A" = some wi ∧ wi.partner_id = none) ∧
    (((Matchmaker.match_client "SX" stW5 "B").1.waiting = stW5.waiting ∧
        (Matchmaker.match_client "SX" stW5 "B").2.2.1 = false) ∨
      ((Matchmaker.match_client "SX" stW5 "B").1.waiting = none ∧
        ∃ wi', dictGet (Matchmaker.match_client "SX" stW5 "B").1.clients "A" = some wi' ∧
          wi'.partner_id = some "B")) ∧
    (Matchmaker.remove_client stW5 "B").1.waiting = some "A" := by
  have hr : Reach stW5 :=
    Reach.attempt _ "A" "SW"
      (Reach.register ⟨[], none⟩ "A" "i" "c" "r" "t" "s" "u" Reach.init (by decide))
  have h := c5_waiting_slot stW5 hr
  exact ⟨h.1 "A" rfl, h.2.1 "A" "B" "SX" rfl (by decide), h.2.2 "A" "B" rfl (by decide)⟩

/-- Witness for C4 amended at a concrete state: the failing-persistence run
leaves the same state as the successful run and raises exactly because the
attempt paired. -/
theorem c4_state_unaffected_by_db_witness :
    (Matchmaker.match_client_db false "S" stWaitingA "B").1
        = (Matchmaker.match_client "S" stWaitingA "B").1 ∧
    ((Matchmaker.match_client_db false "S" stWaitingA "B").2 = Except.error () ↔
      (Matchmaker.match_client "S" stWaitingA "B").2.2.1 = true ∧ false = false) :=
  c4_state_unaffected_by_db false "S" stWaitingA "B"
